import Mathlib

/-!
Verification of the Fogbed IOTA network orchestrator.

This file shallowly embeds the parts of the repository that the verified
properties are about:

* `fogbed_iota/utils/validation.py` -- input validation helpers
  (`validate_container_name`, `validate_ip`, `validate_port`,
  `validate_node_config`);
* `fogbed_iota/models/iota_node.py` -- `IotaNodeConfig._compute_ports` and
  the constructor's validation;
* `fogbed_iota/network.py` -- `IotaNode.__init__` port fields,
  `IotaNetwork.add_validator` / `add_gateway`, `_generate_genesis`,
  `_patch_validator_yaml`, `_create_gateway_config`, `_inject_and_boot`
  (as a trace semantics), `_configure_client` and `stop`;
* `iota_fogbed.py` -- `IotaNetworkManager._create_gateway_config`
  (key-pair extraction variant).

Python strings are modelled as `String` / `List Char`; Python ints as
`Int` (or `Nat` where the source value is provably non-negative);
raising code returns `Except String _`.
-/

namespace FogbedIota

/-! ## Character and line utilities (Python string primitives) -/

/-- Python `str.isspace` / default `str.lstrip` character class, restricted
to ASCII (the configuration templates are ASCII). -/
def isPySpace (c : Char) : Bool :=
  c == ' ' || c == '\t' || c == '\n' || c == '\r' || c == '\x0b' || c == '\x0c'

/-- Number of leading whitespace characters of a line:
`len(line) - len(line.lstrip())`. -/
def leadWs (l : List Char) : Nat :=
  (l.takeWhile isPySpace).length

/-- The indent string `" " * (len(line) - len(line.lstrip()))` used by
`_patch_validator_yaml`. -/
def pyIndent (l : List Char) : List Char :=
  List.replicate (leadWs l) ' '

/-- Python `str.strip()` (ASCII whitespace). -/
def stripChars (l : List Char) : List Char :=
  ((l.dropWhile isPySpace).reverse.dropWhile isPySpace).reverse

/-- Python's substring test `pat in l` (the `in` operator on `str`). -/
def hasSub (pat : List Char) : List Char → Bool
  | [] => pat.isEmpty
  | c :: t => pat.isPrefixOf (c :: t) || hasSub pat t

/-- ASCII lower-casing of one character (Python `str.lower`, restricted to
ASCII, which is all `_patch_validator_yaml` needs to detect `"p2p"`). -/
def lowerChar (c : Char) : Char :=
  if 'A' ≤ c && c ≤ 'Z' then Char.ofNat (c.toNat + 32) else c

/-- ASCII lower-casing of a line. -/
def lowerList (l : List Char) : List Char :=
  l.map lowerChar

/-- Decimal digit characters of a natural number, fuel-driven helper. -/
def natCharsGo : Nat → Nat → List Char
  | 0, _ => []
  | fuel + 1, n =>
    if n < 10 then [Nat.digitChar n]
    else natCharsGo fuel (n / 10) ++ [Nat.digitChar (n % 10)]

/-- Decimal rendering of a natural number (the text an f-string interpolates
for a non-negative Python int). -/
def natChars (n : Nat) : List Char :=
  natCharsGo (n + 1) n

/-- Decimal rendering as a `String`. -/
def natStr (n : Nat) : String :=
  ⟨natChars n⟩

/-! ## Validation helpers (`fogbed_iota/utils/validation.py`) -/

/-- One character of the Docker-name class `[a-z0-9_-]`. -/
def isNameChar (c : Char) : Bool :=
  ('a' ≤ c && c ≤ 'z') || c.isDigit || c == '_' || c == '-'

/-- `validate_container_name`: the name matches the anchored pattern of 1
to 63 characters drawn from lowercase letters, digits, underscore and
dash.  (The Python end-anchor would additionally tolerate a single
trailing newline; names in this system never carry one, so the anchored
reading is used.) -/
def validateContainerName (name : String) : Bool :=
  decide (1 ≤ name.data.length) && decide (name.data.length ≤ 63)
    && name.data.all isNameChar

/-- Split a character list on a separator character (Python `str.split`). -/
def splitSep (sep : Char) : List Char → List (List Char)
  | [] => [[]]
  | c :: t =>
    let r := splitSep sep t
    if c == sep then [] :: r
    else
      match r with
      | [] => [[c]]
      | h :: t' => (c :: h) :: t'

/-- Decimal value of a digit list. -/
def digitsVal (l : List Char) : Nat :=
  l.foldl (fun a c => a * 10 + (c.toNat - 48)) 0

/-- One dotted-quad octet, as CPython's `IPv4Address` parses it:
1-3 ASCII digits, no leading zero, value at most 255. -/
def validOctet (l : List Char) : Bool :=
  decide (1 ≤ l.length) && decide (l.length ≤ 3) && l.all Char.isDigit
    && !(decide (2 ≤ l.length) && l.headD ' ' == '0')
    && decide (digitsVal l ≤ 255)

/-- `validate_ip`: `ipaddress.ip_address(ip_str)` succeeds.  The topology's
address space is IPv4 (spec section 3: "network address (IPv4)"), so the
IPv4 grammar is embedded; CPython would additionally accept IPv6 literals,
which never occur in this system. -/
def validateIp (ip : String) : Bool :=
  let parts := splitSep '.' ip.data
  decide (parts.length = 4) && parts.all validOctet

/-- `validate_port`: the port is in `1..65535`. -/
def validatePort (p : Int) : Bool :=
  decide (1 ≤ p) && decide (p ≤ 65535)

/-- `validate_node_config(name, ip, role, port_offset)`: accumulates the
error list in source order and returns `(ok, errors)`. -/
def validateNodeConfig (name ip role : String) (portOffset : Int) :
    Bool × List String :=
  let errs :=
    (if validateContainerName name then [] else ["Invalid node name: " ++ name])
    ++ (if validateIp ip then [] else ["Invalid node IP: " ++ ip])
    ++ (if role = "validator" ∨ role = "fullnode" then []
        else ["Invalid role: " ++ role])
    ++ (if 0 ≤ portOffset then [] else ["Invalid port_offset"])
  (errs.isEmpty, errs)

/-! ## `IotaNode` of `fogbed_iota/network.py` -/

/-- The fields `IotaNode.__init__` sets after validation: only `p2p_port`
depends on the offset, `rpc_port` and `metrics_port` are the constants
9000 and 9184 (network.py lines 53-55). -/
structure IotaNodePy where
  name : String
  ip : String
  role : String
  port_offset : Int
  p2p_port : Nat
  rpc_port : Nat
  metrics_port : Nat
deriving DecidableEq, Repr

/-- `IotaNode.__init__`: validates via `validate_node_config` and raises
`ValueError` if invalid, otherwise computes the port fields. -/
def mkIotaNodePy (name ip role : String) (offset : Int) :
    Except String IotaNodePy :=
  if (validateNodeConfig name ip role offset).1 then
    .ok { name := name, ip := ip, role := role, port_offset := offset,
          p2p_port := 2001 + offset.toNat * 10,
          rpc_port := 9000, metrics_port := 9184 }
  else
    .error ("Invalid node config: "
      ++ String.intercalate ", " (validateNodeConfig name ip role offset).2)

/-- `IotaNetwork.add_validator`: builds an `IotaNode` with
`port_offset = len(self.nodes)` and appends it; no duplicate check of any
kind is performed against the existing topology. -/
def addValidator (nodes : List IotaNodePy) (name ip : String) :
    Except String (List IotaNodePy) :=
  (mkIotaNodePy name ip "validator" (Int.ofNat nodes.length)).map
    (fun n => nodes ++ [n])

/-- `IotaNetwork.add_gateway`: same as `add_validator` with role
`"fullnode"`. -/
def addGateway (nodes : List IotaNodePy) (name ip : String) :
    Except String (List IotaNodePy) :=
  (mkIotaNodePy name ip "fullnode" (Int.ofNat nodes.length)).map
    (fun n => nodes ++ [n])

/-! ## `IotaNodeConfig` port computation (`fogbed_iota/models/iota_node.py`) -/

/-- `IotaNodeConfig._compute_ports`: all three ports are offset-derived
(bases 2001 / 9000 / 9184, step 10) and each is checked by
`validate_port`, a failed check raising `ValueError`. -/
def computePortsCfg (offset : Int) : Except String (Int × Int × Int) :=
  let p2p := 2001 + offset * 10
  let rpc := 9000 + offset * 10
  let metrics := 9184 + offset * 10
  if !validatePort p2p then .error "Invalid P2P port"
  else if !validatePort rpc then .error "Invalid RPC port"
  else if !validatePort metrics then .error "Invalid Metrics port"
  else .ok (p2p, rpc, metrics)

/-- The computed-port fields of a constructed `IotaNodeConfig`. -/
structure CfgPorts where
  p2p_port : Int
  rpc_port : Int
  metrics_port : Int
deriving DecidableEq, Repr

/-- `IotaNodeConfig.__post_init__` (role given as the enum, `node_type`
left `None`): `_validate` checks the name, the IP and that `port_offset`
is a non-negative int, then `_compute_ports` runs. -/
def mkIotaNodeConfig (name ip : String) (offset : Int) :
    Except String CfgPorts :=
  if !validateContainerName name then .error ("Invalid node name: " ++ name)
  else if !validateIp ip then .error ("Invalid node IP: " ++ ip)
  else if !(decide (0 ≤ offset)) then .error "Invalid port_offset"
  else
    (computePortsCfg offset).map
      (fun t => { p2p_port := t.1, rpc_port := t.2.1, metrics_port := t.2.2 })

/-! ## Genesis generation (`IotaNetwork._generate_genesis`) -/

/-- `_generate_genesis`, abstracted over the outcome of the external tool.
The method first requires at least one validator; `_ensure_iota_binary`
(filesystem/Docker probing that precedes the invocation) is outside the
success contract being verified and is taken to succeed.  The tool is run
with `check=True`, so a non-zero exit raises `CalledProcessError`; after a
zero exit the method raises unless `genesis.blob` exists in the working
directory. -/
def generateGenesis (numValidators : Nat) (toolExit : Int)
    (blobExists : Bool) : Except String Unit :=
  if numValidators = 0 then
    .error "At least one validator required for genesis generation"
  else if toolExit ≠ 0 then
    .error "CalledProcessError: iota genesis"
  else if !blobExists then
    .error "Genesis blob not created"
  else
    .ok ()

/-! ## Validator template patching (`IotaNetwork._patch_validator_yaml`) -/

/-- First pruning/retention exclusion key. -/
def pruneKey1 : List Char := "pruning-period".toList

/-- Second pruning/retention exclusion key. -/
def pruneKey2 : List Char := "num-epochs-to-retain".toList

/-- The `if`/`elif` chain of `_patch_validator_yaml` applied to one
template line; `none` means the line is dropped.  `ip` and `p2p` are the
node's `ip_addr` and `p2p_port`.  Replacement lines carry the trailing
newline exactly as the source f-strings do. -/
def patchLine (ip : List Char) (p2p : Nat) (l : List Char) :
    Option (List Char) :=
  if hasSub "db-path:".toList l then
    some (pyIndent l ++ "db-path: \"/app/db\"\n".toList)
  else if hasSub "genesis-file-location:".toList l then
    some (pyIndent l ++ "genesis-file-location: \"/custom_config/genesis.blob\"\n".toList)
  else if hasSub "network-address:".toList l then
    some (pyIndent l ++ "network-address: /ip4/0.0.0.0/tcp/8080/http\n".toList)
  else if hasSub "metrics-address:".toList l then
    some (pyIndent l ++ "metrics-address: \"0.0.0.0:9184\"\n".toList)
  else if hasSub "listen-address:".toList l && !hasSub "p2p".toList (lowerList l) then
    some (pyIndent l ++ "listen-address: \"0.0.0.0:".toList ++ natChars p2p
          ++ "\"\n".toList)
  else if hasSub "external-address:".toList l then
    some (pyIndent l ++ "external-address: /ip4/".toList ++ ip
          ++ "/tcp/".toList ++ natChars p2p ++ "\n".toList)
  else if hasSub pruneKey1 l || hasSub pruneKey2 l then
    none
  else
    some l

/-- A line matched by none of the seven guards: it passes through
unchanged. -/
def untouchedLine (l : List Char) : Bool :=
  !hasSub "db-path:".toList l
  && !hasSub "genesis-file-location:".toList l
  && !hasSub "network-address:".toList l
  && !hasSub "metrics-address:".toList l
  && !(hasSub "listen-address:".toList l && !hasSub "p2p".toList (lowerList l))
  && !hasSub "external-address:".toList l
  && !(hasSub pruneKey1 l || hasSub pruneKey2 l)

/-- `_patch_validator_yaml` on the template's lines: each line is patched,
dropped or passed through in order. -/
def patchValidatorYaml (ip : List Char) (p2p : Nat)
    (lines : List (List Char)) : List (List Char) :=
  lines.filterMap (patchLine ip p2p)

/-! ## Gateway config synthesis (`IotaNetwork._create_gateway_config`) -/

/-- The fixed lines `_create_gateway_config` emits before the seed-peer
entries (network.py lines 373-388).  The `source` template argument of the
method is never read: the whole config is synthesized from the gateway
node alone. -/
def gatewayHeader (gw : IotaNodePy) : List String :=
  ["---",
   "db-path: \"/app/db\"",
   "network-address: /ip4/0.0.0.0/tcp/8080/http",
   "metrics-address: \"0.0.0.0:9184\"",
   "",
   "json-rpc-address: \"0.0.0.0:9000\"",
   "",
   "genesis:",
   "  genesis-file-location: \"/custom_config/genesis.blob\"",
   "",
   "p2p-config:",
   "  listen-address: \"0.0.0.0:" ++ natStr gw.p2p_port ++ "\"",
   "  external-address: /ip4/" ++ gw.ip ++ "/tcp/" ++ natStr gw.p2p_port,
   "  seed-peers:"]

/-- One seed-peer entry (network.py line 391). -/
def seedPeerLine (v : IotaNodePy) : String :=
  "    - address: /ip4/" ++ v.ip ++ "/tcp/" ++ natStr v.p2p_port

/-- `_create_gateway_config`: fixed header followed by one seed-peer entry
per validator, in validator order. -/
def createGatewayConfig (gw : IotaNodePy) (validators : List IotaNodePy) :
    List String :=
  gatewayHeader gw ++ validators.map seedPeerLine

/-! ## Gateway config of `iota_fogbed.py` (`IotaNetworkManager`) -/

/-- A node of `iota_fogbed.py`'s `IotaNode`: only `ip_addr` and `p2p_port`
feed the gateway config. -/
structure MgrNode where
  ip : String
  p2p_port : Nat
deriving DecidableEq, Repr

/-- Is a line whitespace-only (what `\s*` up to the newline accepts)? -/
def isWsOnly (l : List Char) : Bool :=
  l.all isPySpace

/-- Does the line contain an occurrence of `pat` followed only by
whitespace up to the end of the line?  This is the line-level rendering of
the regex fragment `pat` followed by `\s*\n`. -/
def keyTail (pat : List Char) : List Char → Bool
  | [] => false
  | c :: t => (pat.isPrefixOf (c :: t) && isWsOnly ((c :: t).drop pat.length))
      || keyTail pat t

/-- Parse a value line against the regex fragment `\s*value:\s*(.+)`:
leading whitespace, the literal `value:`, then at least one further
character; the captured group is `.strip()`ed by the caller. -/
def valueLineParse (l : List Char) : Option (List Char) :=
  let l' := l.dropWhile isPySpace
  if "value:".toList.isPrefixOf l' then
    let rest := l'.drop 6
    if rest.isEmpty then none else some (stripChars rest)
  else none

/-- After a matched key line, `\s*` may cross blank lines before the
`value:` line. -/
def extractAfter (rest : List (List Char)) : Option (List Char) :=
  match rest.dropWhile isWsOnly with
  | [] => none
  | l :: _ => valueLineParse l

/-- Line-level rendering of the manager's key-extraction regex search —
the key name, a colon, optional whitespace, a newline, optional
whitespace, the literal `value:`, optional whitespace, and a captured
group that is then stripped: scan for a line holding `k ++ ":"` with only
whitespace after it, whose next non-blank line is a `value:` line; on a
failed candidate the search continues below, as the regex search
would. -/
def extractKeyGo (pat : List Char) : List (List Char) → Option (List Char)
  | [] => none
  | l :: rest =>
    if keyTail pat l then
      match extractAfter rest with
      | some v => some v
      | none => extractKeyGo pat rest
    else extractKeyGo pat rest

/-- Extract the value of key `k` from the template lines. -/
def extractKey (k : String) (templ : List (List Char)) : Option String :=
  (extractKeyGo (k.toList ++ [':']) templ).map List.asString

/-- The four genesis-derived key-pair names. -/
def gatewayKeys : List String :=
  ["authority-key-pair", "protocol-key-pair", "account-key-pair",
   "network-key-pair"]

/-- The extracted-or-blank value used for one key: `keys.get(k, '')`. -/
def keyVal (templ : List (List Char)) (k : String) : String :=
  (extractKey k templ).getD ""

/-- `IotaNetworkManager._create_gateway_config` of `iota_fogbed.py`:
synthesizes the gateway config embedding the four extracted-or-blank
key-pair values, fixed bindings, one seed peer per validator and the
genesis reference.  Always emitted, whatever the template holds. -/
def createGatewayConfigMgr (templ : List (List Char)) (gw : MgrNode)
    (validators : List MgrNode) : List String :=
  ["---",
   "authority-key-pair:",
   "  value: " ++ keyVal templ "authority-key-pair",
   "protocol-key-pair:",
   "  value: " ++ keyVal templ "protocol-key-pair",
   "account-key-pair:",
   "  value: " ++ keyVal templ "account-key-pair",
   "network-key-pair:",
   "  value: " ++ keyVal templ "network-key-pair",
   "db-path: \"/app/db\"",
   "network-address: /ip4/0.0.0.0/tcp/8080/http",
   "json-rpc-address: \"0.0.0.0:9000\"",
   "enable-rest-api: true",
   "metrics-address: \"0.0.0.0:9184\"",
   "p2p-config:",
   "  listen-address: \"0.0.0.0:" ++ natStr gw.p2p_port ++ "\"",
   "  external-address: /ip4/" ++ gw.ip ++ "/udp/" ++ natStr gw.p2p_port,
   "  seed-peers:"]
  ++ validators.map
      (fun v => "    - address: /ip4/" ++ v.ip ++ "/udp/" ++ natStr v.p2p_port)
  ++ ["genesis:",
      "  genesis-file-location: \"/custom_config/genesis.blob\""]

/-! ## Boot sequencing (`IotaNetwork._inject_and_boot`) as a trace
semantics -/

/-- Observable boot steps of one node: config injection (`docker cp`
succeeded), process start (`node.cmd(get_config_command())` issued),
process-alive confirmation (`_wait_node_process` returned), RPC port
confirmation (`_wait_port_open` returned, gateway only). -/
inductive BootEvent where
  | injected (name : String)
  | started (name : String)
  | procAlive (name : String)
  | portOpen (name : String)
deriving DecidableEq, Repr

/-- Environment oracle for one boot attempt: whether each node's config
copy succeeds, whether its process-alive poll succeeds within its timeout,
and whether its RPC port is observed listening within its timeout. -/
structure BootEnv where
  injectOk : String → Bool
  aliveOk : String → Bool
  portOk : String → Bool

/-- A node as `_inject_and_boot` sees it. -/
structure BootNode where
  name : String
  role : String
deriving DecidableEq, Repr

/-- The validator loop of `_inject_and_boot`: each validator in turn is
injected, started, then blocked on by `_wait_node_process`; a raise stops
the loop (`false`), leaving the events that already happened. -/
def bootValidators (env : BootEnv) : List BootNode → List BootEvent × Bool
  | [] => ([], true)
  | n :: rest =>
    if env.injectOk n.name then
      if env.aliveOk n.name then
        let r := bootValidators env rest
        (.injected n.name :: .started n.name :: .procAlive n.name :: r.1, r.2)
      else ([.injected n.name, .started n.name], false)
    else ([], false)

/-- The fullnode loop of `_inject_and_boot`: like the validator loop with
an additional `_wait_port_open(node, 9000)` confirmation. -/
def bootFullnodes (env : BootEnv) : List BootNode → List BootEvent × Bool
  | [] => ([], true)
  | n :: rest =>
    if env.injectOk n.name then
      if env.aliveOk n.name then
        if env.portOk n.name then
          let r := bootFullnodes env rest
          (.injected n.name :: .started n.name :: .procAlive n.name
             :: .portOpen n.name :: r.1, r.2)
        else ([.injected n.name, .started n.name, .procAlive n.name], false)
      else ([.injected n.name, .started n.name], false)
    else ([], false)

/-- `_inject_and_boot`: all validators (in insertion order) first, and only
if every validator boot succeeded does the fullnode loop run. -/
def injectAndBoot (env : BootEnv) (nodes : List BootNode) :
    List BootEvent × Bool :=
  let vs := nodes.filter (fun n => n.role == "validator")
  let fs := nodes.filter (fun n => n.role == "fullnode")
  let r1 := bootValidators env vs
  if r1.2 then
    let r2 := bootFullnodes env fs
    (r1.1 ++ r2.1, r2.2)
  else (r1.1, false)

/-- The node a `BootEvent` belongs to. -/
def BootEvent.nodeName : BootEvent → String
  | .injected n => n
  | .started n => n
  | .procAlive n => n
  | .portOpen n => n

/-! ## Client wiring (`IotaNetwork._configure_client`) -/

/-- `_configure_client`, abstracted over the environment: whether a client
container is set, the tracked nodes, whether a genesis keystore file
exists, whether the `docker cp` of the keystore succeeds, and whether the
generated `client.yaml` passes the in-container YAML check.  A missing
keystore is only warned about; no node-status field is consulted anywhere;
the RPC node is the first fullnode, else the first node of any role.
Returns the RPC URL the client was pointed at (`none` when no client is
configured). -/
def configureClient (clientSet : Bool) (nodes : List IotaNodePy)
    (keystoreExists cpOk yamlValid : Bool) :
    Except String (Option String) :=
  if !clientSet then .ok none
  else
    match nodes.find? (fun n => n.role == "fullnode") |>.orElse
        (fun _ => nodes.head?) with
    | none => .error "No nodes available for client configuration"
    | some rpcNode =>
      if keystoreExists && !cpOk then
        .error "Failed to copy keystore to client"
      else if !yamlValid then
        .error "Invalid client.yaml generated"
      else
        .ok (some ("http://" ++ rpcNode.ip ++ ":" ++ natStr rpcNode.rpc_port))

/-! ## Teardown (`IotaNetwork.stop` and `_cleanup_work_dir`) -/

/-- The teardown-relevant state of an `IotaNetwork`: one process-running
flag per tracked node, whether the shared working directory exists, and
the `auto_cleanup` construction flag (default `True`). -/
structure NetState where
  running : List Bool
  workdir : Bool
  autoCleanup : Bool
deriving DecidableEq, Repr

/-- One node's `pkill -9 iota-node 2>/dev/null || true` under
`try/except`: the command cannot raise past the handler; if the
infrastructure call itself fails (`cmdFail`) the exception is logged and
swallowed, leaving the process as it was. -/
def killOne (runningFlag cmdFail : Bool) : Bool :=
  if cmdFail then runningFlag else false

/-- `_cleanup_work_dir`: `rmtree` under `try/except`; a failure is logged
and swallowed, leaving the directory. -/
def cleanupWorkDir (workdir rmFail : Bool) : Bool :=
  if workdir then (if rmFail then true else false) else false

/-- `IotaNetwork.stop`: kills every tracked node's process (each wrapped in
`try/except`), then removes the working directory only when
`auto_cleanup` is set.  Every raising operation inside is wrapped, so the
method always returns.  (`_cleanup_work_dir` additionally deletes a
temp-binary directory when one was extracted; that side state is
orthogonal to the claims and not modelled.) -/
def stopNet (s : NetState) (cmdFails : Nat → Bool) (rmFail : Bool) :
    Except String NetState :=
  .ok { s with
        running := (s.running.enum.map (fun p => killOne p.2 (cmdFails p.1))),
        workdir := if s.autoCleanup then cleanupWorkDir s.workdir rmFail
                   else s.workdir }

/-! ## Verification-side character class -/

/-- The "inert" characters that can appear inside substituted values
(digits, dots, spaces); no character of a pruning/retention key belongs to
it. -/
def neutral (c : Char) : Bool :=
  c.isDigit || c == '.' || c == ' '

/-! # Theorems -/

theorem isPrefixOf_self (l : List Char) : l.isPrefixOf l = true := by
  induction l with
  | nil => rfl
  | cons c t ih => simp [List.isPrefixOf, ih]

theorem validateNodeConfig_ok_nonneg (name ip role : String) (off : Int)
    (h : (validateNodeConfig name ip role off).1 = true) : 0 ≤ off := by
  by_cases h0 : (0 : Int) ≤ off
  · exact h0
  · simp [validateNodeConfig, h0] at h

theorem exceptIsOk_map {ε α β : Type} (f : α → β) (e : Except ε α) :
    (e.map f).isOk = e.isOk := by
  cases e <;> rfl

theorem mkIotaNodePy_ok (name ip role : String) (off : Int) (n : IotaNodePy)
    (h : mkIotaNodePy name ip role off = .ok n) :
    0 ≤ off ∧ n.p2p_port = 2001 + off.toNat * 10 ∧ n.rpc_port = 9000 ∧
      n.metrics_port = 9184 := by
  unfold mkIotaNodePy at h
  split_ifs at h with hv
  injection h with h'
  subst h'
  exact ⟨validateNodeConfig_ok_nonneg name ip role off hv, rfl, rfl, rfl⟩

theorem computePortsCfg_ok (offset : Int) (t : Int × Int × Int)
    (h : computePortsCfg offset = .ok t) :
    t = (2001 + offset * 10, 9000 + offset * 10, 9184 + offset * 10) ∧
    (1 ≤ t.1 ∧ t.1 ≤ 65535) ∧ (1 ≤ t.2.1 ∧ t.2.1 ≤ 65535) ∧
    (1 ≤ t.2.2 ∧ t.2.2 ≤ 65535) := by
  simp only [computePortsCfg] at h
  split_ifs at h with h1 h2 h3
  injection h with h'
  subst h'
  simp only [validatePort, Bool.not_eq_true', Bool.and_eq_false_iff,
    decide_eq_false_iff_not, not_le, Bool.not_eq_false, Bool.and_eq_true,
    decide_eq_true_eq] at h1 h2 h3
  refine ⟨rfl, ?_, ?_, ?_⟩ <;> dsimp only <;> omega

theorem computePortsCfg_isOk (offset : Int) :
    (computePortsCfg offset).isOk = true ↔
      ((1 ≤ 2001 + offset * 10 ∧ 2001 + offset * 10 ≤ 65535) ∧
       (1 ≤ 9000 + offset * 10 ∧ 9000 + offset * 10 ≤ 65535) ∧
       (1 ≤ 9184 + offset * 10 ∧ 9184 + offset * 10 ≤ 65535)) := by
  constructor
  · intro h
    cases hc : computePortsCfg offset with
    | error e => rw [hc] at h; exact absurd h (by simp [Except.isOk, Except.toBool])
    | ok t =>
      obtain ⟨ht, hr⟩ := computePortsCfg_ok offset t hc
      subst ht
      dsimp only at hr
      exact hr
  · intro hr
    have h1 : validatePort (2001 + offset * 10) = true := by
      simp only [validatePort, Bool.and_eq_true, decide_eq_true_eq]
      omega
    have h2 : validatePort (9000 + offset * 10) = true := by
      simp only [validatePort, Bool.and_eq_true, decide_eq_true_eq]
      omega
    have h3 : validatePort (9184 + offset * 10) = true := by
      simp only [validatePort, Bool.and_eq_true, decide_eq_true_eq]
      omega
    simp [computePortsCfg, h1, h2, h3, Except.isOk, Except.toBool]

/-- C4.  Genesis generation (`_generate_genesis`, given at least one
validator) succeeds exactly when the external `iota genesis` invocation
exits zero AND the `genesis.blob` file exists afterwards; a non-zero exit
or a silently missing blob always raises. -/
theorem c4_genesis_error_contract (nv : Nat) (toolExit : Int) (blob : Bool)
    (h : 0 < nv) :
    (generateGenesis nv toolExit blob).isOk = true ↔
      (toolExit = 0 ∧ blob = true) := by
  have hnv : ¬ nv = 0 := Nat.pos_iff_ne_zero.mp h
  unfold generateGenesis
  by_cases he : toolExit = 0 <;> cases blob <;>
    simp [hnv, he, Except.isOk, Except.toBool]

/-- Witness for C4 at a concrete input. -/
theorem c4_genesis_error_contract_witness :
    0 < 1 ∧
      ((generateGenesis 1 0 true).isOk = true ↔ ((0 : Int) = 0 ∧ true = true)) :=
  ⟨by decide, c4_genesis_error_contract 1 0 true (by decide)⟩

/-- C10.  `IotaNodeConfig` construction: every successfully constructed
config has its three computed ports inside `1..65535`; whenever one of the
computed ports `2001 + offset*10`, `9000 + offset*10`, `9184 + offset*10`
falls outside `1..65535` the constructor raises `ValueError`; in
particular every `port_offset ≥ 5636` is rejected. -/
theorem c10_ports_validated (name ip : String) (offset : Int) :
    (∀ cfg, mkIotaNodeConfig name ip offset = .ok cfg →
       (1 ≤ cfg.p2p_port ∧ cfg.p2p_port ≤ 65535) ∧
       (1 ≤ cfg.rpc_port ∧ cfg.rpc_port ≤ 65535) ∧
       (1 ≤ cfg.metrics_port ∧ cfg.metrics_port ≤ 65535)) ∧
    ((¬ (1 ≤ 2001 + offset * 10 ∧ 2001 + offset * 10 ≤ 65535) ∨
      ¬ (1 ≤ 9000 + offset * 10 ∧ 9000 + offset * 10 ≤ 65535) ∨
      ¬ (1 ≤ 9184 + offset * 10 ∧ 9184 + offset * 10 ≤ 65535)) →
      (mkIotaNodeConfig name ip offset).isOk = false) ∧
    (5636 ≤ offset → (mkIotaNodeConfig name ip offset).isOk = false) := by
  refine ⟨?_, ?_, ?_⟩
  · intro cfg h
    unfold mkIotaNodeConfig at h
    split_ifs at h with hn hi ho
    cases hc : computePortsCfg offset with
    | error e => rw [hc] at h; exact Except.noConfusion h
    | ok t =>
      rw [hc] at h
      simp only [Except.map] at h
      injection h with h'
      subst h'
      have hr := computePortsCfg_ok offset t hc
      exact ⟨hr.2.1, hr.2.2.1, hr.2.2.2⟩
  · intro hout
    unfold mkIotaNodeConfig
    split_ifs with hn hi ho
    · rfl
    · rfl
    · rfl
    · rw [exceptIsOk_map]
      have hno : ¬ (computePortsCfg offset).isOk = true := by
        rw [computePortsCfg_isOk]; tauto
      exact Bool.eq_false_iff.mpr hno
  · intro h5636
    unfold mkIotaNodeConfig
    split_ifs with hn hi ho
    · rfl
    · rfl
    · rfl
    · rw [exceptIsOk_map]
      have hno : ¬ (computePortsCfg offset).isOk = true := by
        rw [computePortsCfg_isOk]; omega
      exact Bool.eq_false_iff.mpr hno

/-- Witness for C10 at concrete inputs: offset 2 is accepted with all
ports in range, offset 5636 is rejected. -/
theorem c10_ports_validated_witness :
    ((1 : Int) ≤ 2021 ∧ (2021 : Int) ≤ 65535) ∧
      ((1 : Int) ≤ 9020 ∧ (9020 : Int) ≤ 65535) ∧
      ((1 : Int) ≤ 9204 ∧ (9204 : Int) ≤ 65535) ∧
      (mkIotaNodeConfig "v1" "10.0.0.1" 5636).isOk = false := by
  have h2 := (c10_ports_validated "v1" "10.0.0.1" 2).1
    ⟨2021, 9020, 9204⟩ (by rfl)
  exact ⟨h2.1, h2.2.1, h2.2.2,
    (c10_ports_validated "v1" "10.0.0.1" 5636).2.2 (by decide)⟩

/-- C1 counterexample.  In `fogbed_iota/network.py`, two nodes of the same
network at distinct topology offsets 0 and 1 (as `add_validator` assigns
them) carry the SAME `rpc_port` 9000 and the SAME `metrics_port` 9184:
the claim that all three derived ports differ pairwise between two nodes
with distinct offsets, and that each port kind is strictly increasing in
the offset, is false for the network's `IotaNode`. -/
theorem c1_port_claim_counterexample :
    (mkIotaNodePy "v1" "10.0.0.1" "validator" 0).map
        (fun n => (n.p2p_port, n.rpc_port, n.metrics_port))
      = .ok (2001, 9000, 9184) ∧
    (mkIotaNodePy "v2" "10.0.0.2" "validator" 1).map
        (fun n => (n.p2p_port, n.rpc_port, n.metrics_port))
      = .ok (2011, 9000, 9184) := by
  constructor <;> rfl

/-- C1 (amended).  For `IotaNodeConfig._compute_ports`
(`fogbed_iota/models/iota_node.py`), distinct offsets give pairwise
distinct port triples (no port of one node equals any port of the other)
and each port kind is strictly increasing in the offset; but for
`fogbed_iota/network.py`'s `IotaNode` only `p2p_port = 2001 + offset*10`
is offset-derived (distinct across offsets), while `rpc_port` and
`metrics_port` are the shared constants 9000 and 9184. -/
theorem c1_port_allocation_amended :
    (∀ (a b : Int) (ta tb : Int × Int × Int),
        computePortsCfg a = .ok ta → computePortsCfg b = .ok tb → a ≠ b →
        (ta.1 ≠ tb.1 ∧ ta.1 ≠ tb.2.1 ∧ ta.1 ≠ tb.2.2 ∧
         ta.2.1 ≠ tb.1 ∧ ta.2.1 ≠ tb.2.1 ∧ ta.2.1 ≠ tb.2.2 ∧
         ta.2.2 ≠ tb.1 ∧ ta.2.2 ≠ tb.2.1 ∧ ta.2.2 ≠ tb.2.2) ∧
        (a < b → ta.1 < tb.1 ∧ ta.2.1 < tb.2.1 ∧ ta.2.2 < tb.2.2)) ∧
    (∀ (n1 n2 i1 i2 : String) (a b : Int) (x y : IotaNodePy),
        mkIotaNodePy n1 i1 "validator" a = .ok x →
        mkIotaNodePy n2 i2 "validator" b = .ok y → a ≠ b →
        x.p2p_port ≠ y.p2p_port ∧ x.rpc_port = y.rpc_port ∧
        x.metrics_port = y.metrics_port) := by
  constructor
  · intro a b ta tb ha hb hab
    have hA := computePortsCfg_ok a ta ha
    have hB := computePortsCfg_ok b tb hb
    rw [hA.1, hB.1]
    constructor
    · refine ⟨?_, ?_, ?_, ?_, ?_, ?_, ?_, ?_, ?_⟩ <;> simp <;> omega
    · intro hlt
      refine ⟨?_, ?_, ?_⟩ <;> simp <;> omega
  · intro n1 n2 i1 i2 a b x y hx hy hab
    have hX := mkIotaNodePy_ok n1 i1 "validator" a x hx
    have hY := mkIotaNodePy_ok n2 i2 "validator" b y hy
    refine ⟨?_, ?_, ?_⟩
    · rw [hX.2.1, hY.2.1]
      have h1 := hX.1
      have h2 := hY.1
      omega
    · rw [hX.2.2.1, hY.2.2.1]
    · rw [hX.2.2.2, hY.2.2.2]

/-- Witness for C1's amended theorem at concrete inputs (offsets 0 and 1). -/
theorem c1_port_allocation_amended_witness :
    ((2001 : Int), (9000 : Int), (9184 : Int)).1
        ≠ ((2011 : Int), (9010 : Int), (9194 : Int)).1 ∧
      (2001 : Int) < 2011 := by
  have h := (c1_port_allocation_amended.1 0 1
    (2001, 9000, 9184) (2011, 9010, 9194) (by rfl) (by rfl) (by decide))
  exact ⟨h.1.1, (h.2 (by decide)).1⟩

/-- C3 counterexample.  Adding the very same `(name, ip)` twice via
`add_validator` succeeds both times: the duplicate is silently accepted
into the topology instead of failing with a `DuplicateNode` error. -/
theorem c3_duplicate_counterexample :
    ((addValidator [] "v1" "10.0.0.1").bind
        (fun t => addValidator t "v1" "10.0.0.1")).map
        (List.map (fun n => (n.name, n.ip)))
      = .ok [("v1", "10.0.0.1"), ("v1", "10.0.0.1")] := by
  rfl

/-- C3 (amended).  `add_validator` / `add_gateway` fail (with
`ValueError`, the code's rendering of `InvalidConfig`) exactly when
`validate_node_config` rejects the name pattern or the address; no
duplicate check is performed at add-time: whenever validation passes the
node is appended even if its name or address is already present in the
topology. -/
theorem c3_add_no_duplicate_check (nodes : List IotaNodePy)
    (name ip : String) :
    ((addValidator nodes name ip).isOk
       = (validateNodeConfig name ip "validator" (Int.ofNat nodes.length)).1) ∧
    ((addGateway nodes name ip).isOk
       = (validateNodeConfig name ip "fullnode" (Int.ofNat nodes.length)).1) ∧
    (∀ t, addValidator nodes name ip = .ok t →
       t.map (fun n => n.name) = nodes.map (fun n => n.name) ++ [name] ∧
       t.map (fun n => n.ip) = nodes.map (fun n => n.ip) ++ [ip]) ∧
    (∀ t, addGateway nodes name ip = .ok t →
       t.map (fun n => n.name) = nodes.map (fun n => n.name) ++ [name] ∧
       t.map (fun n => n.ip) = nodes.map (fun n => n.ip) ++ [ip]) := by
  refine ⟨?_, ?_, ?_, ?_⟩
  · unfold addValidator mkIotaNodePy
    cases hv : (validateNodeConfig name ip "validator" (Int.ofNat nodes.length)).1 <;>
      simp [hv, Except.map, Except.isOk, Except.toBool]
  · unfold addGateway mkIotaNodePy
    cases hv : (validateNodeConfig name ip "fullnode" (Int.ofNat nodes.length)).1 <;>
      simp [hv, Except.map, Except.isOk, Except.toBool]
  · intro t h
    unfold addValidator mkIotaNodePy at h
    split_ifs at h with hv
    · simp only [Except.map] at h
      injection h with h'
      subst h'
      simp
    · simp only [Except.map] at h
      exact Except.noConfusion h
  · intro t h
    unfold addGateway mkIotaNodePy at h
    split_ifs at h with hv
    · simp only [Except.map] at h
      injection h with h'
      subst h'
      simp
    · simp only [Except.map] at h
      exact Except.noConfusion h

/-- Witness for C3's amended theorem at a concrete topology that already
holds the name and address being added. -/
theorem c3_add_no_duplicate_check_witness :
    ∀ t, addValidator [⟨"v1", "10.0.0.1", "validator", 0, 2001, 9000, 9184⟩]
        "v1" "10.0.0.1" = .ok t →
      t.map (fun n => n.name) = ["v1", "v1"] ∧
      t.map (fun n => n.ip) = ["10.0.0.1", "10.0.0.1"] :=
  fun t h =>
    (c3_add_no_duplicate_check
      [⟨"v1", "10.0.0.1", "validator", 0, 2001, 9000, 9184⟩]
      "v1" "10.0.0.1").2.2.1 t h

/-- C6.  The gateway config compiled by `_create_gateway_config` has
exactly `len(validators)` seed-peer entries after its 14 header lines, the
`i`-th entry being the P2P multiaddr of the `i`-th validator (its IP and
`p2p_port`), in validator-insertion order. -/
theorem c6_gateway_seed_peers (gw : IotaNodePy) (vs : List IotaNodePy)
    (i : Nat) (h : i < vs.length) :
    (createGatewayConfig gw vs).length = 14 + vs.length ∧
    (createGatewayConfig gw vs)[14 + i]? =
      some ("    - address: /ip4/" ++ (vs.get ⟨i, h⟩).ip ++ "/tcp/"
        ++ natStr (vs.get ⟨i, h⟩).p2p_port) := by
  have hlen : (gatewayHeader gw).length = 14 := rfl
  constructor
  · simp only [createGatewayConfig, List.length_append, List.length_map, hlen]
  · have h14 : (gatewayHeader gw).length ≤ 14 + i := by omega
    rw [createGatewayConfig, List.getElem?_append_right h14, hlen,
      Nat.add_sub_cancel_left, List.getElem?_map, List.getElem?_eq_getElem h]
    rfl

/-- Witness for C6 at a one-validator network. -/
theorem c6_gateway_seed_peers_witness :
    (createGatewayConfig ⟨"g1", "10.0.0.100", "fullnode", 1, 2011, 9000, 9184⟩
        [⟨"v1", "10.0.0.1", "validator", 0, 2001, 9000, 9184⟩]).length
      = 14 + 1 ∧
    (createGatewayConfig ⟨"g1", "10.0.0.100", "fullnode", 1, 2011, 9000, 9184⟩
        [⟨"v1", "10.0.0.1", "validator", 0, 2001, 9000, 9184⟩])[14 + 0]? =
      some ("    - address: /ip4/"
        ++ (([⟨"v1", "10.0.0.1", "validator", 0, 2001, 9000, 9184⟩]
              : List IotaNodePy).get ⟨0, by decide⟩).ip
        ++ "/tcp/"
        ++ natStr (([⟨"v1", "10.0.0.1", "validator", 0, 2001, 9000, 9184⟩]
              : List IotaNodePy).get ⟨0, by decide⟩).p2p_port) :=
  c6_gateway_seed_peers
    ⟨"g1", "10.0.0.100", "fullnode", 1, 2011, 9000, 9184⟩
    [⟨"v1", "10.0.0.1", "validator", 0, 2001, 9000, 9184⟩] 0 (by decide)

/-- C8 counterexample.  With no genesis keystore present,
`_configure_client` still succeeds and emits a client configuration
pointing at the gateway (only a warning is logged), and no
`PortConfirmed`/`Running` status of the gateway is ever consulted: the
claim that client wiring fails in these situations is false. -/
theorem c8_configure_client_counterexample :
    configureClient true
        [⟨"g1", "10.0.0.100", "fullnode", 1, 2011, 9000, 9184⟩]
        false true true
      = .ok (some "http://10.0.0.100:9000") := by
  rfl

/-- C8 (amended).  `_configure_client` returns without error (and without
writing anything) when no client container is set; with a client set it
raises only when no node exists at all, when the keystore copy fails, or
when the generated YAML fails validation; a MISSING keystore is only
warned about and the client config is still produced, pointed at the
first fullnode (or, lacking one, the first node of any role); no node
lifecycle status is consulted. -/
theorem c8_configure_client_amended (nodes : List IotaNodePy)
    (ks cp yv : Bool) :
    (configureClient false nodes ks cp yv = .ok none) ∧
    ((configureClient true nodes ks cp yv).isOk = true ↔
       (nodes ≠ [] ∧ (ks = true → cp = true) ∧ yv = true)) ∧
    (nodes ≠ [] → yv = true →
       ∃ url, configureClient true nodes false cp yv = .ok (some url)) := by
  refine ⟨rfl, ?_, ?_⟩
  · cases nodes with
    | nil => simp [configureClient, Except.isOk, Except.toBool]
    | cons a t =>
      cases hf : (a :: t).find? (fun n => n.role == "fullnode") <;>
        cases ks <;> cases cp <;> cases yv <;>
          simp [configureClient, hf, Option.orElse, Except.isOk, Except.toBool]
  · intro hne hyv
    subst hyv
    cases nodes with
    | nil => exact absurd rfl hne
    | cons a t =>
      cases hf : (a :: t).find? (fun n => n.role == "fullnode") with
      | none =>
        refine ⟨"http://" ++ a.ip ++ ":" ++ natStr a.rpc_port, ?_⟩
        simp [configureClient, hf, Option.orElse]
      | some b =>
        refine ⟨"http://" ++ b.ip ++ ":" ++ natStr b.rpc_port, ?_⟩
        simp [configureClient, hf, Option.orElse]

/-- Witness for C8's amended theorem at a concrete keystore-less state. -/
theorem c8_configure_client_amended_witness :
    ∃ url, configureClient true
        [⟨"g1", "10.0.0.100", "fullnode", 1, 2011, 9000, 9184⟩]
        false true true = .ok (some url) :=
  (c8_configure_client_amended
      [⟨"g1", "10.0.0.100", "fullnode", 1, 2011, 9000, 9184⟩]
      false true true).2.2 (by simp) rfl

theorem enumFrom_kill_false (l : List Bool) (k : Nat) :
    (List.enumFrom k l).map (fun p => killOne p.2 false)
      = List.replicate l.length false := by
  induction l generalizing k with
  | nil => rfl
  | cons a t ih =>
    show ((k, a) :: List.enumFrom (k + 1) t).map (fun p => killOne p.2 false)
        = false :: List.replicate t.length false
    simp only [List.map_cons, ih (k + 1)]
    rfl

theorem enum_kill_false (l : List Bool) :
    l.enum.map (fun p => killOne p.2 false)
      = List.replicate l.length false :=
  enumFrom_kill_false l 0

/-- C9 counterexample.  With `auto_cleanup=False`, `stop()` leaves the
working directory in place: the claim that after each `stop()` call the
working directory no longer exists is false for such a network. -/
theorem c9_stop_counterexample :
    (stopNet { running := [], workdir := true, autoCleanup := false }
        (fun _ => false) false).map (fun s => s.workdir) = .ok true := by
  rfl

/-- C9 (amended).  `stop()` never raises (every raising operation inside
it is wrapped, for any infrastructure outcome), in particular not for
nodes that never started a process; when the kill and removal commands
succeed it leaves every tracked process stopped; and — provided
`auto_cleanup` is enabled (the constructor default) — the working
directory is removed and a second `stop()` in a row reproduces the same
final state with no error. -/
theorem c9_stop_idempotent_amended (s : NetState) (h : s.autoCleanup = true) :
    ∃ s', stopNet s (fun _ => false) false = .ok s' ∧
      s'.running.all (fun r => r == false) = true ∧
      s'.workdir = false ∧
      stopNet s' (fun _ => false) false = .ok s' ∧
      (∀ cf rf, (stopNet s cf rf).isOk = true) := by
  refine ⟨⟨List.replicate s.running.length false, false, true⟩, ?_, ?_, rfl,
    ?_, ?_⟩
  · simp only [stopNet, h, if_true, cleanupWorkDir, if_neg Bool.false_ne_true,
      ite_self, Except.ok.injEq]
    have hk : s.running.enum.map (fun p => killOne p.2 false)
        = List.replicate s.running.length false := enum_kill_false s.running
    simp [hk]
  · simp [List.all_eq_true, List.mem_replicate]
  · simp only [stopNet, if_true, cleanupWorkDir, ite_self, Except.ok.injEq]
    have hk := enum_kill_false (List.replicate s.running.length false)
    simp [hk]
  · intro cf rf
    rfl

/-- Witness for C9's amended theorem at a concrete partially-booted
network state. -/
theorem c9_stop_idempotent_amended_witness :
    ∃ s', stopNet ⟨[true, false], true, true⟩ (fun _ => false) false = .ok s' ∧
      s'.running.all (fun r => r == false) = true ∧
      s'.workdir = false ∧
      stopNet s' (fun _ => false) false = .ok s' ∧
      (∀ cf rf, (stopNet ⟨[true, false], true, true⟩ cf rf).isOk = true) :=
  c9_stop_idempotent_amended ⟨[true, false], true, true⟩ rfl

theorem keyTail_self (pat : List Char) (hp : pat ≠ []) :
    keyTail pat pat = true := by
  cases pat with
  | nil => exact absurd rfl hp
  | cons c t =>
    unfold keyTail
    rw [isPrefixOf_self, List.drop_length]
    rfl

theorem stripChars_cons_space (v : List Char) (hv : stripChars v = v) :
    stripChars (' ' :: v) = v := by
  have hd : (' ' :: v).dropWhile isPySpace = v.dropWhile isPySpace := rfl
  unfold stripChars at hv ⊢
  rw [hd]
  exact hv

theorem valueLineParse_value (v : List Char) (hs : stripChars v = v)
    (_hv : v ≠ []) :
    valueLineParse ("  value: ".toList ++ v) = some v := by
  simp only [valueLineParse]
  rw [show ("  value: ".toList ++ v).dropWhile isPySpace
      = "value: ".toList ++ v from rfl]
  rw [show ("value:".toList.isPrefixOf ("value: ".toList ++ v)) = true from rfl]
  simp only [if_true]
  rw [show (("value: ".toList ++ v).drop 6) = ' ' :: v from rfl]
  rw [show ((' ' :: v).isEmpty) = false from rfl]
  simp only [Bool.false_eq_true, if_false]
  rw [stripChars_cons_space v hs]

theorem extractKeyGo_found (pat : List Char) (hp : pat ≠ [])
    (pre : List (List Char)) (hpre : pre.all (fun l => !keyTail pat l) = true)
    (v : List Char) (hs : stripChars v = v) (hv : v ≠ [])
    (post : List (List Char)) :
    extractKeyGo pat (pre ++ pat :: ("  value: ".toList ++ v) :: post)
      = some v := by
  induction pre with
  | nil =>
    simp only [List.nil_append, extractKeyGo, keyTail_self pat hp, if_true]
    have hw : isWsOnly ("  value: ".toList ++ v) = false := rfl
    unfold extractAfter
    rw [show ((("  value: ".toList ++ v) :: post).dropWhile isWsOnly)
        = ("  value: ".toList ++ v) :: post from by
      rw [List.dropWhile_cons, hw]
      simp]
    exact valueLineParse_value v hs hv
  | cons p0 pre' ih =>
    simp only [List.all_cons, Bool.and_eq_true, Bool.not_eq_true'] at hpre
    simp only [List.cons_append, extractKeyGo, hpre.1, Bool.false_eq_true,
      if_false]
    exact ih hpre.2

/-- C5 counterexample.  The canonical gateway compiler
(`IotaNetwork._create_gateway_config` in `fogbed_iota/network.py`) never
reads its template argument and emits a config with NO key-pair entry at
all: for a concrete gateway and validator list, no line of the compiled
config so much as mentions `key-pair`, refuting the claim that the
compiled gateway config embeds the four genesis-derived key-pair
values. -/
theorem c5_gateway_keypairs_counterexample :
    (createGatewayConfig ⟨"g1", "10.0.0.100", "fullnode", 3, 2031, 9000, 9184⟩
        [⟨"v1", "10.0.0.1", "validator", 0, 2001, 9000, 9184⟩]).all
      (fun l => !(hasSub "key-pair".toList l.data)) = true := by
  rfl

/-- C5 (amended).  In `iota_fogbed.py`'s
`IotaNetworkManager._create_gateway_config` the four genesis-derived
key-pair values ARE embedded: the emitted config always holds, right
after its opening line, the four `<key-name>:` / `  value: <value>` pairs
whose values are extracted from the template by the
`key-name:`-line-followed-by-`value:`-line pattern, a missing key is
rendered as a blank value with no error, and the config is emitted with
its full line count whatever the template holds; the canonical
`fogbed_iota/network.py` gateway compiler instead embeds no key-pair
values at all (see the counterexample). -/
theorem c5_gateway_keypairs_amended (templ : List (List Char)) (gw : MgrNode)
    (vs : List MgrNode) :
    ((createGatewayConfigMgr templ gw vs).length = 20 + vs.length) ∧
    ((createGatewayConfigMgr templ gw vs)[1]? = some "authority-key-pair:" ∧
     (createGatewayConfigMgr templ gw vs)[2]?
        = some ("  value: " ++ keyVal templ "authority-key-pair") ∧
     (createGatewayConfigMgr templ gw vs)[3]? = some "protocol-key-pair:" ∧
     (createGatewayConfigMgr templ gw vs)[4]?
        = some ("  value: " ++ keyVal templ "protocol-key-pair") ∧
     (createGatewayConfigMgr templ gw vs)[5]? = some "account-key-pair:" ∧
     (createGatewayConfigMgr templ gw vs)[6]?
        = some ("  value: " ++ keyVal templ "account-key-pair") ∧
     (createGatewayConfigMgr templ gw vs)[7]? = some "network-key-pair:" ∧
     (createGatewayConfigMgr templ gw vs)[8]?
        = some ("  value: " ++ keyVal templ "network-key-pair")) ∧
    (∀ k, extractKey k templ = none → keyVal templ k = "") ∧
    (∀ (k : String) (v : List Char) (pre post : List (List Char)),
       pre.all (fun l => !keyTail (k.toList ++ [':']) l) = true →
       stripChars v = v → v ≠ [] →
       extractKey k
           (pre ++ (k.toList ++ [':']) :: ("  value: ".toList ++ v) :: post)
         = some v.asString) := by
  refine ⟨?_, ⟨rfl, rfl, rfl, rfl, rfl, rfl, rfl, rfl⟩, ?_, ?_⟩
  · simp only [createGatewayConfigMgr, List.length_append, List.length_map,
      List.length_cons]
    simp
    omega
  · intro k h
    simp [keyVal, h]
  · intro k v pre post hpre hs hv
    have hp : k.toList ++ [':'] ≠ [] := by simp
    unfold extractKey
    rw [extractKeyGo_found (k.toList ++ [':']) hp pre hpre v hs hv post]
    rfl

/-- Witness for C5's amended theorem: the extraction clause at a concrete
two-line template. -/
theorem c5_gateway_keypairs_amended_witness :
    extractKey "authority-key-pair"
        ([] ++ ("authority-key-pair".toList ++ [':'])
          :: ("  value: ".toList ++ "abc".toList) :: [])
      = some "abc" :=
  (c5_gateway_keypairs_amended [] ⟨"g1", 2031⟩ []).2.2.2
    "authority-key-pair" "abc".toList [] [] (by decide) (by decide) (by decide)

theorem bootValidators_fail (env : BootEnv) (vs : List BootNode)
    (h : ∃ v ∈ vs, env.aliveOk v.name = false) :
    (bootValidators env vs).2 = false := by
  induction vs with
  | nil =>
    rcases h with ⟨v, hv, _⟩
    cases hv
  | cons n rest ih =>
    rcases h with ⟨v, hv, ha⟩
    by_cases hI : env.injectOk n.name
    · by_cases hA : env.aliveOk n.name
      · have hvr : v ∈ rest := by
          rcases List.mem_cons.mp hv with h1 | h1
          · subst h1; rw [hA] at ha; cases ha
          · exact h1
        simp only [bootValidators, hI, hA, if_true]
        exact ih ⟨v, hvr, ha⟩
      · simp [bootValidators, hI, hA]
    · simp [bootValidators, hI]

theorem bootValidators_names (env : BootEnv) (vs : List BootNode) :
    ∀ e ∈ (bootValidators env vs).1, e.nodeName ∈ vs.map BootNode.name := by
  induction vs with
  | nil =>
    intro e he
    simp [bootValidators] at he
  | cons n rest ih =>
    intro e he
    simp only [List.map_cons, List.mem_cons]
    by_cases hI : env.injectOk n.name
    · by_cases hA : env.aliveOk n.name
      · simp only [bootValidators, hI, hA, if_true] at he
        rcases List.mem_cons.mp he with h | he1
        · subst h; left; rfl
        rcases List.mem_cons.mp he1 with h | he2
        · subst h; left; rfl
        rcases List.mem_cons.mp he2 with h | he3
        · subst h; left; rfl
        · exact Or.inr (by simpa using ih e he3)
      · simp only [bootValidators, hI, hA] at he
        rcases List.mem_cons.mp he with h | he1
        · subst h; left; rfl
        rcases List.mem_cons.mp he1 with h | he2
        · subst h; left; rfl
        · cases he2
    · simp [bootValidators, hI] at he

theorem bootFullnodes_names (env : BootEnv) (fs : List BootNode) :
    ∀ e ∈ (bootFullnodes env fs).1, e.nodeName ∈ fs.map BootNode.name := by
  induction fs with
  | nil =>
    intro e he
    simp [bootFullnodes] at he
  | cons n rest ih =>
    intro e he
    simp only [List.map_cons, List.mem_cons]
    by_cases hI : env.injectOk n.name
    · by_cases hA : env.aliveOk n.name
      · by_cases hP : env.portOk n.name
        · simp only [bootFullnodes, hI, hA, hP, if_true] at he
          rcases List.mem_cons.mp he with h | he1
          · subst h; left; rfl
          rcases List.mem_cons.mp he1 with h | he2
          · subst h; left; rfl
          rcases List.mem_cons.mp he2 with h | he3
          · subst h; left; rfl
          rcases List.mem_cons.mp he3 with h | he4
          · subst h; left; rfl
          · exact Or.inr (by simpa using ih e he4)
        · simp only [bootFullnodes, hI, hA, hP] at he
          rcases List.mem_cons.mp he with h | he1
          · subst h; left; rfl
          rcases List.mem_cons.mp he1 with h | he2
          · subst h; left; rfl
          rcases List.mem_cons.mp he2 with h | he3
          · subst h; left; rfl
          · cases he3
      · simp only [bootFullnodes, hI, hA] at he
        rcases List.mem_cons.mp he with h | he1
        · subst h; left; rfl
        rcases List.mem_cons.mp he1 with h | he2
        · subst h; left; rfl
        · cases he2
    · simp [bootFullnodes, hI] at he

theorem roles_name_disjoint (nodes : List BootNode)
    (hnd : (nodes.map BootNode.name).Nodup) (r1 r2 : String) (hr : r1 ≠ r2)
    (x : BootNode) (hx : x ∈ nodes.filter (fun n => n.role == r1)) :
    x.name ∉ (nodes.filter (fun n => n.role == r2)).map BootNode.name := by
  intro hmem
  rcases List.mem_map.mp hmem with ⟨y, hy, hname⟩
  have hxn : x ∈ nodes := (List.mem_filter.mp hx).1
  have hxr : x.role = r1 := by
    have := (List.mem_filter.mp hx).2
    simpa [beq_iff_eq] using this
  have hyn : y ∈ nodes := (List.mem_filter.mp hy).1
  have hyr : y.role = r2 := by
    have := (List.mem_filter.mp hy).2
    simpa [beq_iff_eq] using this
  have heq : y = x := List.inj_on_of_nodup_map hnd hyn hxn hname
  rw [heq, hxr] at hyr
  exact hr hyr

theorem bootValidators_order (env : BootEnv) :
    ∀ (vs : List BootNode), (vs.map BootNode.name).Nodup →
    ∀ i j (hj : j < vs.length), i < j →
    BootEvent.started ((vs.get ⟨j, hj⟩).name) ∈ (bootValidators env vs).1 →
    ∀ (hi : i < vs.length),
    List.Sublist
      [BootEvent.procAlive ((vs.get ⟨i, hi⟩).name),
       BootEvent.started ((vs.get ⟨j, hj⟩).name)]
      (bootValidators env vs).1 := by
  intro vs
  induction vs with
  | nil =>
    intro _ i j hj
    exact absurd hj (Nat.not_lt_zero j)
  | cons n rest ih =>
    intro hnd i j hj hij hmem hi
    simp only [List.map_cons] at hnd
    obtain ⟨hn1, hn2⟩ := List.nodup_cons.mp hnd
    obtain ⟨j', rfl⟩ : ∃ j'', j = j'' + 1 := ⟨j - 1, by omega⟩
    have hj' : j' < rest.length := by
      simpa [List.length_cons] using hj
    have hne : (rest.get ⟨j', hj'⟩).name ≠ n.name := by
      intro he
      exact hn1 (he ▸ List.mem_map_of_mem BootNode.name
        (List.get_mem rest j' hj'))
    by_cases hI : env.injectOk n.name
    · by_cases hA : env.aliveOk n.name
      · simp only [bootValidators, hI, hA, if_true] at hmem ⊢
        have hmem' : BootEvent.started ((rest.get ⟨j', hj'⟩).name)
            ∈ (bootValidators env rest).1 := by
          rcases List.mem_cons.mp hmem with h1 | hmem1
          · exact absurd h1 (by simp)
          rcases List.mem_cons.mp hmem1 with h2 | hmem2
          · injection h2 with hx
            exact absurd hx hne
          rcases List.mem_cons.mp hmem2 with h3 | hmem3
          · exact absurd h3 (by simp)
          · exact hmem3
        cases i with
        | zero =>
          have hsing : [BootEvent.started ((rest.get ⟨j', hj'⟩).name)].Sublist
              (bootValidators env rest).1 :=
            List.singleton_sublist.mpr hmem'
          exact (hsing.cons₂ _).cons _ |>.cons _
        | succ i' =>
          have hi' : i' < rest.length := by
            simpa [List.length_cons] using hi
          have hij' : i' < j' := by omega
          have hsub := ih hn2 i' j' hj' hij' hmem' hi'
          exact (hsub.cons _).cons _ |>.cons _
      · exfalso
        simp only [bootValidators, hI, hA] at hmem
        rcases List.mem_cons.mp hmem with h1 | hmem1
        · exact absurd h1 (by simp)
        rcases List.mem_cons.mp hmem1 with h2 | hmem2
        · injection h2 with hx
          exact absurd hx hne
        · cases hmem2
    · exfalso
      simp [bootValidators, hI] at hmem

/-- C2.  Boot sequencing of `_inject_and_boot`: validators are processed
strictly in insertion order — whenever a later validator's start event is
in the boot trace, every earlier validator's process-alive confirmation
precedes it in the trace; and if any validator's process-alive wait fails,
the whole boot ends failed and no gateway/fullnode node is ever injected
or started. -/
theorem c2_boot_sequencing (env : BootEnv) (nodes : List BootNode)
    (hnd : (nodes.map BootNode.name).Nodup) :
    (∀ i j (hi : i < (nodes.filter (fun n => n.role == "validator")).length)
        (hj : j < (nodes.filter (fun n => n.role == "validator")).length),
        i < j →
        BootEvent.started
            (((nodes.filter (fun n => n.role == "validator")).get
              ⟨j, hj⟩).name)
          ∈ (injectAndBoot env nodes).1 →
        List.Sublist
          [BootEvent.procAlive
              (((nodes.filter (fun n => n.role == "validator")).get
                ⟨i, hi⟩).name),
           BootEvent.started
              (((nodes.filter (fun n => n.role == "validator")).get
                ⟨j, hj⟩).name)]
          (injectAndBoot env nodes).1) ∧
    ((∃ v ∈ nodes.filter (fun n => n.role == "validator"),
        env.aliveOk v.name = false) →
      (injectAndBoot env nodes).2 = false ∧
      ∀ f ∈ nodes.filter (fun n => n.role == "fullnode"),
        BootEvent.injected f.name ∉ (injectAndBoot env nodes).1 ∧
        BootEvent.started f.name ∉ (injectAndBoot env nodes).1) := by
  have hndv : ((nodes.filter (fun n => n.role == "validator")).map
      BootNode.name).Nodup :=
    hnd.sublist ((List.filter_sublist nodes).map BootNode.name)
  constructor
  · intro i j hi hj hij hmem
    by_cases hok :
        (bootValidators env (nodes.filter (fun n => n.role == "validator"))).2
          = true
    · simp only [injectAndBoot, hok, if_true] at hmem ⊢
      rcases List.mem_append.mp hmem with hm1 | hm2
      · exact (bootValidators_order env _ hndv i j hj hij hm1 hi).trans
          (List.sublist_append_left _ _)
      · exfalso
        have hname := bootFullnodes_names env _ _ hm2
        simp only [BootEvent.nodeName] at hname
        exact roles_name_disjoint nodes hnd "validator" "fullnode"
          (by decide) _ (List.get_mem _ j hj) hname
    · have hok' :
          (bootValidators env
            (nodes.filter (fun n => n.role == "validator"))).2 = false :=
        Bool.not_eq_true _ ▸ Bool.eq_false_iff.mpr hok
      simp only [injectAndBoot, hok', Bool.false_eq_true, if_false] at hmem ⊢
      exact bootValidators_order env _ hndv i j hj hij hmem hi
  · intro hex
    have hfail := bootValidators_fail env _ hex
    refine ⟨?_, ?_⟩
    · simp [injectAndBoot, hfail]
    · intro f hf
      have hnotin := roles_name_disjoint nodes hnd "fullnode" "validator"
        (by decide) f hf
      constructor <;> intro hin <;>
        simp only [injectAndBoot, hfail, Bool.false_eq_true, if_false] at hin
      · exact hnotin (by simpa [BootEvent.nodeName] using
          bootValidators_names env _ _ hin)
      · exact hnotin (by simpa [BootEvent.nodeName] using
          bootValidators_names env _ _ hin)

/-- Witness for C2 at a concrete three-node network whose second
validator fails its process-alive check. -/
theorem c2_boot_sequencing_witness :
    (injectAndBoot
        ⟨fun _ => true, fun n => n != "v2", fun _ => true⟩
        [⟨"v1", "validator"⟩, ⟨"v2", "validator"⟩, ⟨"g1", "fullnode"⟩]).2
      = false ∧
    ∀ f ∈ ([⟨"v1", "validator"⟩, ⟨"v2", "validator"⟩,
            ⟨"g1", "fullnode"⟩] : List BootNode).filter
        (fun n => n.role == "fullnode"),
      BootEvent.injected f.name
          ∉ (injectAndBoot
              ⟨fun _ => true, fun n => n != "v2", fun _ => true⟩
              [⟨"v1", "validator"⟩, ⟨"v2", "validator"⟩,
               ⟨"g1", "fullnode"⟩]).1 ∧
      BootEvent.started f.name
          ∉ (injectAndBoot
              ⟨fun _ => true, fun n => n != "v2", fun _ => true⟩
              [⟨"v1", "validator"⟩, ⟨"v2", "validator"⟩,
               ⟨"g1", "fullnode"⟩]).1 :=
  (c2_boot_sequencing
      ⟨fun _ => true, fun n => n != "v2", fun _ => true⟩
      [⟨"v1", "validator"⟩, ⟨"v2", "validator"⟩, ⟨"g1", "fullnode"⟩]
      (by decide)).2
    ⟨⟨"v2", "validator"⟩, by decide, by decide⟩

theorem not_prefixOf_neutral_head (pat : List Char)
    (hpat : pat.all (fun c => !neutral c) = true) (hp0 : pat ≠ [])
    (c : Char) (hc : neutral c = true) (t : List Char) :
    pat.isPrefixOf (c :: t) = false := by
  cases pat with
  | nil => exact absurd rfl hp0
  | cons p pr =>
    simp only [List.all_cons, Bool.and_eq_true, Bool.not_eq_true'] at hpat
    cases hpc : p == c with
    | false => simp [List.isPrefixOf, hpc]
    | true =>
      exfalso
      have hpc' : p = c := by simpa using hpc
      rw [hpc', hc] at hpat
      exact Bool.noConfusion hpat.1

theorem isPrefixOf_split :
    ∀ (pat : List Char), pat.all (fun c => !neutral c) = true →
    ∀ (a m b : List Char), m.all neutral = true → m ≠ [] →
    pat.isPrefixOf (a ++ (m ++ b)) = true → pat.isPrefixOf a = true := by
  intro pat
  induction pat with
  | nil =>
    intro _ a m b _ _ _
    cases a <;> rfl
  | cons p pr ih =>
    intro hpat a m b hm hmne hp
    simp only [List.all_cons, Bool.and_eq_true, Bool.not_eq_true'] at hpat
    cases a with
    | nil =>
      exfalso
      cases m with
      | nil => exact hmne rfl
      | cons c mt =>
        simp only [List.nil_append, List.cons_append, List.isPrefixOf,
          Bool.and_eq_true] at hp
        have hpc : p = c := by simpa using hp.1
        simp only [List.all_cons, Bool.and_eq_true] at hm
        rw [hpc, hm.1] at hpat
        exact Bool.noConfusion hpat.1
    | cons x a' =>
      simp only [List.cons_append, List.isPrefixOf, Bool.and_eq_true] at hp ⊢
      exact ⟨hp.1, ih hpat.2 a' m b hm hmne hp.2⟩

theorem hasSub_strip (pat : List Char)
    (hpat : pat.all (fun c => !neutral c) = true) (hp0 : pat ≠ []) :
    ∀ (m l : List Char), m.all neutral = true →
    hasSub pat (m ++ l) = true → hasSub pat l = true := by
  intro m
  induction m with
  | nil => intro l _ h; simpa using h
  | cons c mt ih =>
    intro l hm h
    simp only [List.all_cons, Bool.and_eq_true] at hm
    rw [List.cons_append] at h
    rw [show hasSub pat (c :: (mt ++ l))
        = (pat.isPrefixOf (c :: (mt ++ l)) || hasSub pat (mt ++ l)) from rfl,
      not_prefixOf_neutral_head pat hpat hp0 c hm.1 (mt ++ l),
      Bool.false_or] at h
    exact ih l hm.2 h

theorem hasSub_split (pat : List Char)
    (hpat : pat.all (fun c => !neutral c) = true) (hp0 : pat ≠ []) :
    ∀ (a m b : List Char), m.all neutral = true → m ≠ [] →
    hasSub pat (a ++ (m ++ b)) = true →
    hasSub pat a = true ∨ hasSub pat b = true := by
  intro a
  induction a with
  | nil =>
    intro m b hm _ h
    right
    exact hasSub_strip pat hpat hp0 m b hm (by simpa using h)
  | cons x a' ih =>
    intro m b hm hmne h
    rw [List.cons_append,
      show hasSub pat (x :: (a' ++ (m ++ b)))
        = (pat.isPrefixOf (x :: (a' ++ (m ++ b)))
            || hasSub pat (a' ++ (m ++ b))) from rfl,
      Bool.or_eq_true] at h
    rcases h with hpre | hrest
    · left
      have hpa := isPrefixOf_split pat hpat (x :: a') m b hm hmne
        (by simpa [List.cons_append] using hpre)
      rw [show hasSub pat (x :: a')
          = (pat.isPrefixOf (x :: a') || hasSub pat a') from rfl, hpa]
      rfl
    · rcases ih m b hm hmne hrest with h1 | h1
      · left
        rw [show hasSub pat (x :: a')
            = (pat.isPrefixOf (x :: a') || hasSub pat a') from rfl, h1]
        simp
      · right; exact h1

theorem replicate_space_neutral (n : Nat) :
    (List.replicate n ' ').all neutral = true := by
  induction n with
  | zero => rfl
  | succ k ih =>
    show ((' ' :: List.replicate k ' ').all neutral) = true
    rw [List.all_cons, ih]
    rfl

theorem digitChar_neutral (m : Nat) (h : m < 10) :
    neutral (Nat.digitChar m) = true := by
  interval_cases m <;> rfl

theorem natCharsGo_neutral (fuel : Nat) :
    ∀ n, (natCharsGo fuel n).all neutral = true := by
  induction fuel with
  | zero => intro n; rfl
  | succ f ih =>
    intro n
    by_cases h : n < 10
    · simp [natCharsGo, h, digitChar_neutral n h]
    · simp [natCharsGo, h, List.all_append, ih (n / 10),
        digitChar_neutral (n % 10) (Nat.mod_lt n (by decide))]

theorem natChars_neutral (n : Nat) : (natChars n).all neutral = true :=
  natCharsGo_neutral (n + 1) n

theorem natCharsGo_ne_nil (fuel n : Nat) (h : 0 < fuel) :
    natCharsGo fuel n ≠ [] := by
  cases fuel with
  | zero => exact absurd h (by decide)
  | succ f =>
    by_cases h10 : n < 10 <;> simp [natCharsGo, h10]

theorem natChars_ne_nil (n : Nat) : natChars n ≠ [] :=
  natCharsGo_ne_nil (n + 1) n (Nat.succ_pos n)

theorem leadWs_replicate_append (n : Nat) (l : List Char) :
    leadWs (List.replicate n ' ' ++ l) = n + leadWs l := by
  induction n with
  | zero => simp [leadWs]
  | succ k ih =>
    show (List.takeWhile isPySpace
        (' ' :: (List.replicate k ' ' ++ l))).length = (k + 1) + leadWs l
    rw [show List.takeWhile isPySpace (' ' :: (List.replicate k ' ' ++ l))
        = ' ' :: List.takeWhile isPySpace (List.replicate k ' ' ++ l) from rfl,
      List.length_cons]
    show leadWs (List.replicate k ' ' ++ l) + 1 = (k + 1) + leadWs l
    omega

theorem leadWs_append_eq_zero (a x : List Char) (h0 : leadWs a = 0)
    (hne : a ≠ []) : leadWs (a ++ x) = 0 := by
  cases a with
  | nil => exact absurd rfl hne
  | cons c r =>
    have hc : isPySpace c = false := by
      cases hcc : isPySpace c with
      | false => rfl
      | true =>
        exfalso
        simp [leadWs, List.takeWhile_cons, hcc] at h0
    simp [leadWs, List.takeWhile_cons, hc]

theorem noSub_indent_const (pat K : List Char) (n : Nat)
    (hpat : pat.all (fun c => !neutral c) = true) (hp0 : pat ≠ [])
    (hK : hasSub pat K = false) :
    hasSub pat (List.replicate n ' ' ++ K) = false := by
  cases hres : hasSub pat (List.replicate n ' ' ++ K) with
  | false => rfl
  | true =>
    exfalso
    have hs := hasSub_strip pat hpat hp0 (List.replicate n ' ') K
      (replicate_space_neutral n) hres
    rw [hK] at hs
    exact Bool.noConfusion hs

theorem noSub_listen (pat K1 K2 : List Char) (n d : Nat)
    (hpat : pat.all (fun c => !neutral c) = true) (hp0 : pat ≠ [])
    (h1 : hasSub pat K1 = false) (h2 : hasSub pat K2 = false) :
    hasSub pat (List.replicate n ' ' ++ (K1 ++ (natChars d ++ K2)))
      = false := by
  cases hres : hasSub pat (List.replicate n ' ' ++ (K1 ++ (natChars d ++ K2)))
    with
  | false => rfl
  | true =>
    exfalso
    have hs := hasSub_strip pat hpat hp0 (List.replicate n ' ')
      (K1 ++ (natChars d ++ K2)) (replicate_space_neutral n) hres
    rcases hasSub_split pat hpat hp0 K1 (natChars d) K2
        (natChars_neutral d) (natChars_ne_nil d) hs with hA | hB
    · rw [h1] at hA; exact Bool.noConfusion hA
    · rw [h2] at hB; exact Bool.noConfusion hB

theorem noSub_external (pat K3 K4 K5 : List Char) (n d : Nat)
    (ipc : List Char)
    (hpat : pat.all (fun c => !neutral c) = true) (hp0 : pat ≠ [])
    (hip : ipc.all neutral = true)
    (h3 : hasSub pat K3 = false) (h34 : hasSub pat (K3 ++ K4) = false)
    (h4 : hasSub pat K4 = false) (h5 : hasSub pat K5 = false) :
    hasSub pat
        (List.replicate n ' ' ++ (K3 ++ (ipc ++ (K4 ++ (natChars d ++ K5)))))
      = false := by
  cases hres : hasSub pat
      (List.replicate n ' ' ++ (K3 ++ (ipc ++ (K4 ++ (natChars d ++ K5)))))
    with
  | false => rfl
  | true =>
    exfalso
    have hs := hasSub_strip pat hpat hp0 (List.replicate n ' ')
      (K3 ++ (ipc ++ (K4 ++ (natChars d ++ K5))))
      (replicate_space_neutral n) hres
    cases ipc with
    | nil =>
      simp only [List.nil_append] at hs
      rw [← List.append_assoc] at hs
      rcases hasSub_split pat hpat hp0 (K3 ++ K4) (natChars d) K5
          (natChars_neutral d) (natChars_ne_nil d) hs with hA | hB
      · rw [h34] at hA; exact Bool.noConfusion hA
      · rw [h5] at hB; exact Bool.noConfusion hB
    | cons c ict =>
      rcases hasSub_split pat hpat hp0 K3 (c :: ict)
          (K4 ++ (natChars d ++ K5)) hip (by simp) hs with hA | hB
      · rw [h3] at hA; exact Bool.noConfusion hA
      · rcases hasSub_split pat hpat hp0 K4 (natChars d) K5
            (natChars_neutral d) (natChars_ne_nil d) hB with hC | hD
        · rw [h4] at hC; exact Bool.noConfusion hC
        · rw [h5] at hD; exact Bool.noConfusion hD

theorem patchLine_no_prune (ip : List Char) (p2p : Nat)
    (hip : ∀ c ∈ ip, c.isDigit = true ∨ c = '.')
    (l l' : List Char) (h : patchLine ip p2p l = some l') :
    hasSub pruneKey1 l' = false ∧ hasSub pruneKey2 l' = false := by
  have hipn : ip.all neutral = true := by
    simp only [List.all_eq_true]
    intro c hc
    rcases hip c hc with h1 | h1
    · simp [neutral, h1]
    · subst h1; rfl
  unfold patchLine at h
  split_ifs at h with g1 g2 g3 g4 g5 g6 g7
  · injection h with h'
    subst h'
    constructor <;>
      · simp only [pyIndent, List.append_assoc]
        exact noSub_indent_const _ _ _ (by decide) (by decide) (by decide)
  · injection h with h'
    subst h'
    constructor <;>
      · simp only [pyIndent, List.append_assoc]
        exact noSub_indent_const _ _ _ (by decide) (by decide) (by decide)
  · injection h with h'
    subst h'
    constructor <;>
      · simp only [pyIndent, List.append_assoc]
        exact noSub_indent_const _ _ _ (by decide) (by decide) (by decide)
  · injection h with h'
    subst h'
    constructor <;>
      · simp only [pyIndent, List.append_assoc]
        exact noSub_indent_const _ _ _ (by decide) (by decide) (by decide)
  · injection h with h'
    subst h'
    constructor <;>
      · simp only [pyIndent, List.append_assoc]
        exact noSub_listen _ _ _ _ _ (by decide) (by decide) (by decide)
          (by decide)
  · injection h with h'
    subst h'
    constructor <;>
      · simp only [pyIndent, List.append_assoc]
        exact noSub_external _ _ _ _ _ _ _ (by decide) (by decide) hipn
          (by decide) (by decide) (by decide) (by decide)
  · injection h with h'
    subst h'
    have hg : (hasSub pruneKey1 l || hasSub pruneKey2 l) = false :=
      Bool.eq_false_iff.mpr g7
    simp only [Bool.or_eq_false_iff] at hg
    exact hg

theorem patchLine_leadWs (ip : List Char) (p2p : Nat) (l l' : List Char)
    (h : patchLine ip p2p l = some l') : leadWs l' = leadWs l := by
  unfold patchLine at h
  split_ifs at h with g1 g2 g3 g4 g5 g6 g7
  · injection h with h'
    subst h'
    simp only [pyIndent, List.append_assoc, leadWs_replicate_append]
    have hz : leadWs ("db-path: \"/app/db\"\n".toList) = 0 := by decide
    omega
  · injection h with h'
    subst h'
    simp only [pyIndent, List.append_assoc, leadWs_replicate_append]
    have hz :
        leadWs ("genesis-file-location: \"/custom_config/genesis.blob\"\n".toList)
          = 0 := by decide
    omega
  · injection h with h'
    subst h'
    simp only [pyIndent, List.append_assoc, leadWs_replicate_append]
    have hz : leadWs ("network-address: /ip4/0.0.0.0/tcp/8080/http\n".toList)
        = 0 := by decide
    omega
  · injection h with h'
    subst h'
    simp only [pyIndent, List.append_assoc, leadWs_replicate_append]
    have hz : leadWs ("metrics-address: \"0.0.0.0:9184\"\n".toList) = 0 := by
      decide
    omega
  · injection h with h'
    subst h'
    simp only [pyIndent, List.append_assoc, leadWs_replicate_append]
    have hz : leadWs ("listen-address: \"0.0.0.0:".toList
        ++ (natChars p2p ++ "\"\n".toList)) = 0 :=
      leadWs_append_eq_zero _ _ (by decide) (by decide)
    omega
  · injection h with h'
    subst h'
    simp only [pyIndent, List.append_assoc, leadWs_replicate_append]
    have hz : leadWs ("external-address: /ip4/".toList
        ++ (ip ++ ("/tcp/".toList ++ (natChars p2p ++ "\n".toList)))) = 0 :=
      leadWs_append_eq_zero _ _ (by decide) (by decide)
    omega
  · injection h with h'
    subst h'
    rfl

theorem patchLine_untouched (ip : List Char) (p2p : Nat) (l : List Char)
    (h : untouchedLine l = true) : patchLine ip p2p l = some l := by
  simp only [untouchedLine, Bool.and_eq_true, Bool.not_eq_true'] at h
  obtain ⟨⟨⟨⟨⟨⟨h1, h2⟩, h3⟩, h4⟩, h5⟩, h6⟩, h7⟩ := h
  unfold patchLine
  split_ifs with g1 g2 g3 g4 g5 g6 g7
  · rw [h1] at g1; exact Bool.noConfusion g1
  · rw [h2] at g2; exact Bool.noConfusion g2
  · rw [h3] at g3; exact Bool.noConfusion g3
  · rw [h4] at g4; exact Bool.noConfusion g4
  · rw [h5] at g5; exact Bool.noConfusion g5
  · rw [h6] at g6; exact Bool.noConfusion g6
  · rw [h7] at g7; exact Bool.noConfusion g7
  · rfl

theorem filter_sublist_filterMap {α : Type} (p : α → Bool) (f : α → Option α)
    (hpf : ∀ a, p a = true → f a = some a) :
    ∀ l : List α, (l.filter p).Sublist (l.filterMap f) := by
  intro l
  induction l with
  | nil => simp
  | cons a t ih =>
    cases hp : p a with
    | true =>
      rw [List.filter_cons_of_pos hp]
      simp only [List.filterMap_cons, hpf a hp]
      exact ih.cons₂ a
    | false =>
      rw [List.filter_cons_of_neg (by simp [hp])]
      cases hf : f a with
      | none => simp only [List.filterMap_cons, hf]; exact ih
      | some b => simp only [List.filterMap_cons, hf]; exact ih.cons b

/-- C7.  `_patch_validator_yaml`: for every template, no line of the
compiled validator config mentions a pruning/retention key
(`pruning-period`, `num-epochs-to-retain`); every substituted line keeps
the leading-whitespace depth of the original line; every line matching no
recognized directive passes through unchanged; and the untouched lines
appear in the output in their original order. -/
theorem c7_validator_patch (ip : List Char) (p2p : Nat)
    (lines : List (List Char))
    (hip : ∀ c ∈ ip, c.isDigit = true ∨ c = '.') :
    (∀ l ∈ patchValidatorYaml ip p2p lines,
        hasSub pruneKey1 l = false ∧ hasSub pruneKey2 l = false) ∧
    (∀ l l', patchLine ip p2p l = some l' → leadWs l' = leadWs l) ∧
    (∀ l, untouchedLine l = true → patchLine ip p2p l = some l) ∧
    (lines.filter untouchedLine).Sublist (patchValidatorYaml ip p2p lines) := by
  refine ⟨?_, ?_, ?_, ?_⟩
  · intro l hl
    rcases List.mem_filterMap.mp hl with ⟨a, _, hfa⟩
    exact patchLine_no_prune ip p2p hip a l hfa
  · intro l l' h
    exact patchLine_leadWs ip p2p l l' h
  · intro l h
    exact patchLine_untouched ip p2p l h
  · exact filter_sublist_filterMap untouchedLine (patchLine ip p2p)
      (patchLine_untouched ip p2p) lines

/-- Witness for C7 at a concrete node and template. -/
theorem c7_validator_patch_witness :
    (∀ c ∈ "10.0.0.1".toList, c.isDigit = true ∨ c = '.') ∧
    ((∀ l ∈ patchValidatorYaml "10.0.0.1".toList 2011
          ["  db-path: xyz\n".toList, "  pruning-period: 3\n".toList,
           "other: 1\n".toList],
        hasSub pruneKey1 l = false ∧ hasSub pruneKey2 l = false) ∧
     (∀ l l', patchLine "10.0.0.1".toList 2011 l = some l' →
        leadWs l' = leadWs l) ∧
     (∀ l, untouchedLine l = true →
        patchLine "10.0.0.1".toList 2011 l = some l) ∧
     (["  db-path: xyz\n".toList, "  pruning-period: 3\n".toList,
       "other: 1\n".toList].filter untouchedLine).Sublist
        (patchValidatorYaml "10.0.0.1".toList 2011
          ["  db-path: xyz\n".toList, "  pruning-period: 3\n".toList,
           "other: 1\n".toList])) :=
  ⟨by decide,
   c7_validator_patch "10.0.0.1".toList 2011
     ["  db-path: xyz\n".toList, "  pruning-period: 3\n".toList,
      "other: 1\n".toList] (by decide)⟩

end FogbedIota
